import Mathlib

/-!
Verification of the team-activity aggregation tool (`github_client.py`,
`jira_client.py`, `main.py`) via a shallow embedding.

Network I/O is modelled by passing the remote response as an explicit
argument; timestamps (`datetime`) are modelled as calendar records with
the same lexicographic comparison Python uses; the JSON cache file is an
association list threaded through each call as explicit state.
-/

/-- Python `datetime` (naive), to second granularity.  Parsing of ISO
strings (`datetime.fromisoformat`) is abstracted: remote items carry the
parsed value directly. -/
structure DateTime where
  year : Nat
  month : Nat
  day : Nat
  hour : Nat
  minute : Nat
  second : Nat
deriving DecidableEq, Repr

/-- Python `datetime` comparison: lexicographic on the fields. -/
def DateTime.leb (a b : DateTime) : Bool :=
  if a.year ≠ b.year then decide (a.year < b.year)
  else if a.month ≠ b.month then decide (a.month < b.month)
  else if a.day ≠ b.day then decide (a.day < b.day)
  else if a.hour ≠ b.hour then decide (a.hour < b.hour)
  else if a.minute ≠ b.minute then decide (a.minute < b.minute)
  else decide (a.second ≤ b.second)

/-- Zero-padded decimal rendering, as `strftime` field formatting does. -/
def padZeros (w : Nat) (n : Nat) : String :=
  let s := toString n
  String.mk (List.replicate (w - s.length) '0') ++ s

/-- `d.strftime('%Y%m%d')`: the calendar date only, no time of day. -/
def strftimeYMD (d : DateTime) : String :=
  padZeros 4 d.year ++ padZeros 2 d.month ++ padZeros 2 d.day

/-- `GitHubClient._get_cache_key`:
`f"{repo_name}_{start_date.strftime('%Y%m%d')}_{end_date.strftime('%Y%m%d')}"`. -/
def get_cache_key (repo_name : String) (start_date end_date : DateTime) : String :=
  repo_name ++ "_" ++ strftimeYMD start_date ++ "_" ++ strftimeYMD end_date

/-- One element of the JSON array returned by `GET /repos/{owner}/{repo}/pulls`.
`updated_at` is the parsed update timestamp (the source parses the ISO
string and strips the timezone). -/
structure RawPR where
  number : Nat
  title : String
  state : String
  created_at : String
  updated_at : DateTime
  user_login : String
deriving DecidableEq, Repr

/-- The normalized dict appended to `all_prs` in `get_all_pull_requests`. -/
structure PullRequestRecord where
  number : Nat
  title : String
  state : String
  created_at : String
  updated_at : DateTime
  repo : String
  author : String
deriving DecidableEq, Repr

/-- Normalization of one remote item into the cached/returned record shape. -/
def normalizePR (repo_name : String) (pr : RawPR) : PullRequestRecord :=
  { number := pr.number
    title := pr.title
    state := pr.state
    created_at := pr.created_at
    updated_at := pr.updated_at
    repo := repo_name
    author := pr.user_login }

/-- The retention loop of `get_all_pull_requests`: keep a remote item iff
`start_date <= pr_date <= end_date`, then normalize, preserving order. -/
def filterPRs (repo_name : String) (start_date end_date : DateTime)
    (prs_data : List RawPR) : List PullRequestRecord :=
  (prs_data.filter
    (fun pr => start_date.leb pr.updated_at && pr.updated_at.leb end_date)).map
    (normalizePR repo_name)

/-- The in-memory `self._cache` dict: cache key ↦ record list. -/
abbrev Cache := List (String × List PullRequestRecord)

/-- Python dict lookup `key in self._cache` / `self._cache[key]`. -/
def cacheLookup : Cache → String → Option (List PullRequestRecord)
  | [], _ => none
  | (k, v) :: rest, key => if k = key then some v else cacheLookup rest key

/-- Python dict assignment `self._cache[key] = value`. -/
def cacheInsert : Cache → String → List PullRequestRecord → Cache
  | [], key, v => [(key, v)]
  | (k, w) :: rest, key, v =>
      if k = key then (key, v) :: rest else (k, w) :: cacheInsert rest key v

/-- Client state: the in-memory cache (persisted write-through to disk;
the disk copy never diverges from `_cache` within a run). -/
structure ClientState where
  cache : Cache
deriving DecidableEq, Repr

/-- A remote HTTP response for the code-hosting call: status code, raw
body text, and (when it parses) the JSON array of pull requests. -/
structure GHResponse where
  status : Nat
  text : String
  json : List RawPR

/-- `Exception(f"GitHub API error: {status} - {text}")` /
`Exception(f"Jira API error: {status} - {text}")`: the raised error
carries the status code and the response body. -/
structure UpstreamError where
  status : Nat
  body : String
deriving DecidableEq, Repr

/-- `GitHubClient.get_all_pull_requests`.  Checks the cache first using
`_get_cache_key(repo, start, end)`; on a hit returns the cached records
with no network call.  On a miss it performs the single network call
(`net` is the response the remote would give), raises on a non-200
status, otherwise filters by update timestamp, caches the result under
the same key and returns it.  The final `Nat` counts network calls made
(0 or 1). -/
def get_all_pull_requests (net : GHResponse) (repo_name : String)
    (start_date end_date : DateTime) (st : ClientState) :
    Except UpstreamError (List PullRequestRecord × ClientState × Nat) :=
  let key := get_cache_key repo_name start_date end_date
  match cacheLookup st.cache key with
  | some recs => Except.ok (recs, st, 0)
  | none =>
    if net.status ≠ 200 then
      Except.error { status := net.status, body := net.text }
    else
      let all_prs := filterPRs repo_name start_date end_date net.json
      Except.ok (all_prs, { cache := cacheInsert st.cache key all_prs }, 1)

/-- `GitHubClient.get_user_pull_requests`: one call to
`get_all_pull_requests`, then a pure in-memory filter by author. -/
def get_user_pull_requests (net : GHResponse) (repo_name username : String)
    (start_date end_date : DateTime) (st : ClientState) :
    Except UpstreamError (List PullRequestRecord × ClientState × Nat) :=
  match get_all_pull_requests net repo_name start_date end_date st with
  | Except.error err => Except.error err
  | Except.ok (all_prs, st', n) =>
      Except.ok (all_prs.filter (fun pr => pr.author == username), st', n)

/-- What `GitHubClient._load_cache` finds on disk: no file, a file that
cannot be read, a file whose contents do not parse, or a valid mapping. -/
inductive CacheFile where
  | missing
  | unreadable
  | corrupt
  | valid (c : Cache)

/-- `GitHubClient._load_cache`: best-effort load; every failure mode
yields the empty mapping (the `except: pass` / `return {}` path). -/
def load_cache : CacheFile → Cache
  | CacheFile.missing => []
  | CacheFile.unreadable => []
  | CacheFile.corrupt => []
  | CacheFile.valid c => c

/-- One entry of `changelog.histories[].items[]`.  `fromString`/`toString`
may be absent (the source uses `item.get(..., 'None')`). -/
structure HistoryItem where
  field : String
  fromString : Option String
  toString : Option String
deriving DecidableEq, Repr

/-- One entry of `changelog.histories[]`; `created` is the parsed
timestamp (the source parses the ISO string and strips the timezone). -/
structure History where
  created : DateTime
  items : List HistoryItem
deriving DecidableEq, Repr

/-- One element of `data["issues"]`.  `changelog` is `none` when the
issue has no `changelog` key or the changelog has no `histories` key. -/
structure RawIssue where
  key : String
  summary : String
  status : String
  updated : String
  changelog : Option (List History)
deriving DecidableEq, Repr

/-- The dict appended to `issues` in `JiraClient.get_user_activities`. -/
structure IssueActivityRecord where
  key : String
  summary : String
  status : String
  updated : String
  changes : List String
deriving DecidableEq, Repr

/-- The `change_desc` f-string of `get_user_activities`: field, colon,
from-value, separator, to-value.  The separator in the source file is
the three-character sequence U+00E2 U+2020 U+2019 (a mojibake rendering
of the arrow), not the arrow character U+2192. -/
def change_desc (item : HistoryItem) : String :=
  item.field ++ ": " ++ item.fromString.getD "None" ++ " \u00E2\u2020\u2019 "
    ++ (HistoryItem.toString item).getD "None"

/-- The nested changelog loop of `get_user_activities`: keep a history
entry iff `start_date <= history_date <= end_date`; within a kept entry,
emit one description per item whose field is not `description` or
`Bug Template`, in order. -/
def recent_changes (start_date end_date : DateTime)
    (histories : List History) : List String :=
  (histories.filter
      (fun h => start_date.leb h.created && h.created.leb end_date)).flatMap
    (fun h =>
      (h.items.filter
          (fun item => !((["description", "Bug Template"] : List String).contains item.field))).map
        change_desc)

/-- Normalization of one issue into the returned record shape; an issue
with no in-range history entries gets `changes = []`. -/
def normalize_issue (start_date end_date : DateTime) (issue : RawIssue) :
    IssueActivityRecord :=
  { key := issue.key
    summary := issue.summary
    status := issue.status
    updated := issue.updated
    changes := recent_changes start_date end_date (issue.changelog.getD []) }

/-- A remote HTTP response for the issue-tracker search call. -/
structure JiraResponse where
  status : Nat
  text : String
  issues : List RawIssue

/-- `JiraClient.get_user_activities`: one network call (`net` is the
response the remote would give for the JQL query built from the member's
email and the day-granularity range bounds), raises on a non-200 status,
otherwise emits one record per returned issue.  No cache is consulted. -/
def get_user_activities (net : JiraResponse) (start_date end_date : DateTime) :
    Except UpstreamError (List IssueActivityRecord) :=
  if net.status ≠ 200 then
    Except.error { status := net.status, body := net.text }
  else
    Except.ok (net.issues.map (normalize_issue start_date end_date))

/-- One team member from the configuration. -/
structure TeamMember where
  email : String
  github_user : String
deriving DecidableEq, Repr

/-- The per-repository loop inside `main`'s per-member phase: for each
repository in order, try `get_user_pull_requests`; on success extend
`all_prs`, on failure record the error for that repository only and
continue with the remaining repositories.  Cache state threads through. -/
def fetch_member_prs (ghNet : String → GHResponse) (username : String)
    (start_date end_date : DateTime) :
    List String → ClientState →
      List PullRequestRecord × List (String × UpstreamError) × ClientState
  | [], st => ([], [], st)
  | repo :: rest, st =>
    match get_user_pull_requests (ghNet repo) repo username start_date end_date st with
    | Except.ok (prs, st', _) =>
        let (restPrs, restErrs, st'') :=
          fetch_member_prs ghNet username start_date end_date rest st'
        (prs ++ restPrs, restErrs, st'')
    | Except.error err =>
        let (restPrs, restErrs, st') :=
          fetch_member_prs ghNet username start_date end_date rest st
        (restPrs, (repo, err) :: restErrs, st')

/-- What `main` reports for one member: the Jira outcome (an error there
is caught and printed, not propagated) and the concatenated pull
requests plus per-repository errors. -/
structure MemberReport where
  email : String
  jira : Except UpstreamError (List IssueActivityRecord)
  prs : List PullRequestRecord
  pr_errors : List (String × UpstreamError)
deriving Repr

/-- The per-member loop of `main`: members processed in configured
order; each member's Jira failure is caught inside that member's
iteration, and every member is processed regardless of earlier
failures. -/
def process_members (ghNet : String → GHResponse) (jNet : String → JiraResponse)
    (start_date end_date : DateTime) (repos : List String) :
    List TeamMember → ClientState → List MemberReport × ClientState
  | [], st => ([], st)
  | m :: rest, st =>
    let jr := get_user_activities (jNet m.email) start_date end_date
    let (prs, errs, st') := fetch_member_prs ghNet m.github_user start_date end_date repos st
    let (restReports, st'') := process_members ghNet jNet start_date end_date repos rest st'
    ({ email := m.email, jira := jr, prs := prs, pr_errors := errs } :: restReports, st'')

/-- Whether an `Except` computation raised. -/
def isError {ε α : Type _} : Except ε α → Bool
  | Except.error _ => true
  | Except.ok _ => false

/-- Sample range start used in concrete instances. -/
def dStart : DateTime := ⟨2024, 1, 1, 0, 0, 0⟩

/-- Sample range end used in concrete instances. -/
def dEnd : DateTime := ⟨2024, 1, 2, 0, 0, 0⟩

/-- Sample remote pull-request item with an in-range update timestamp. -/
def prAlice : RawPR := ⟨1, "fix bug", "open", "2024-01-01T10:00:00Z", ⟨2024, 1, 1, 12, 0, 0⟩, "alice"⟩

/-- Sample changelog item on a non-ignored field. -/
def itemStatus : HistoryItem := ⟨"status", some "To Do", some "Done"⟩

/-- Sample in-range history entry. -/
def histIn : History := ⟨⟨2024, 1, 1, 6, 0, 0⟩, [itemStatus]⟩

/-- Sample out-of-range history entry. -/
def histOut : History := ⟨⟨2023, 6, 1, 6, 0, 0⟩, [itemStatus]⟩

/-- Sample issue whose only history entry is out of range. -/
def issueQuiet : RawIssue :=
  ⟨"PROJ-1", "quiet issue", "Done", "2024-01-01T09:00:00Z", some [histOut]⟩

/-- Sample code-hosting network: repository `b` is down, the others
answer with one pull request by alice. -/
def ghNetW : String → GHResponse :=
  fun repo => if repo = "b" then ⟨500, "boom", []⟩ else ⟨200, "", [prAlice]⟩

/-- Sample issue-tracker network: always down. -/
def jNetW : String → JiraResponse := fun _ => ⟨500, "jira down", []⟩

/-- Sample team member. -/
def memberW : TeamMember := ⟨"alice@example.com", "alice"⟩

/-- Client state after caching repository `a`'s records. -/
def stA_w : ClientState :=
  ⟨cacheInsert [] (get_cache_key "a" dStart dEnd) [normalizePR "a" prAlice]⟩

/-- Client state after caching repositories `a` and `c`. -/
def stC_w : ClientState :=
  ⟨cacheInsert stA_w.cache (get_cache_key "c" dStart dEnd) [normalizePR "c" prAlice]⟩

theorem band_true {a b : Bool} (h : (a && b) = true) : a = true ∧ b = true := by
  simp at h
  exact h

theorem cacheLookup_cacheInsert_self (c : Cache) (key : String)
    (v : List PullRequestRecord) :
    cacheLookup (cacheInsert c key v) key = some v := by
  induction c with
  | nil => simp [cacheInsert, cacheLookup]
  | cons kv rest ih =>
    obtain ⟨k, w⟩ := kv
    by_cases h : k = key <;> simp [cacheInsert, cacheLookup, h, ih]

theorem normalizePR_inj (repo_name : String) {a b : RawPR}
    (h : normalizePR repo_name a = normalizePR repo_name b) : a = b := by
  cases a
  cases b
  simp only [normalizePR, PullRequestRecord.mk.injEq] at h
  simp [RawPR.mk.injEq, h.1, h.2.1, h.2.2.1, h.2.2.2.1, h.2.2.2.2.1, h.2.2.2.2.2.2]

/-- C4: the cache key depends on the repository name and the calendar
dates of the range bounds only — two ranges with equal start/end days
give the same key whatever their time-of-day components. -/
theorem cache_key_day_granularity (repo_name : String) (s1 e1 s2 e2 : DateTime)
    (hsy : s1.year = s2.year) (hsm : s1.month = s2.month) (hsd : s1.day = s2.day)
    (hey : e1.year = e2.year) (hem : e1.month = e2.month) (hed : e1.day = e2.day) :
    get_cache_key repo_name s1 e1 = get_cache_key repo_name s2 e2 := by
  simp [get_cache_key, strftimeYMD, hsy, hsm, hsd, hey, hem, hed]

/-- Witness for C4 at a concrete pair of ranges differing only in time
of day. -/
theorem cache_key_day_granularity_witness :
    get_cache_key "edge-functions" ⟨2024, 1, 2, 3, 4, 5⟩ ⟨2024, 1, 9, 6, 7, 8⟩ =
      get_cache_key "edge-functions" ⟨2024, 1, 2, 23, 59, 59⟩ ⟨2024, 1, 9, 0, 0, 1⟩ :=
  cache_key_day_granularity "edge-functions" _ _ _ _ rfl rfl rfl rfl rfl rfl

/-- C2: on a cache miss with a successful remote response, the first
call performs exactly one network call and stores its result; a second
call with the same repository and range (whatever the remote would
answer then) performs zero network calls and returns the identical
records from the cache. -/
theorem fetch_idempotent_single_network_call (net net2 : GHResponse)
    (repo_name : String) (start_date end_date : DateTime) (st : ClientState)
    (hmiss : cacheLookup st.cache (get_cache_key repo_name start_date end_date) = none)
    (hok : net.status = 200) :
    get_all_pull_requests net repo_name start_date end_date st =
      Except.ok (filterPRs repo_name start_date end_date net.json,
        ⟨cacheInsert st.cache (get_cache_key repo_name start_date end_date)
          (filterPRs repo_name start_date end_date net.json)⟩, 1) ∧
    get_all_pull_requests net2 repo_name start_date end_date
        ⟨cacheInsert st.cache (get_cache_key repo_name start_date end_date)
          (filterPRs repo_name start_date end_date net.json)⟩ =
      Except.ok (filterPRs repo_name start_date end_date net.json,
        ⟨cacheInsert st.cache (get_cache_key repo_name start_date end_date)
          (filterPRs repo_name start_date end_date net.json)⟩, 0) := by
  constructor
  · simp [get_all_pull_requests, hmiss, hok]
  · simp [get_all_pull_requests, cacheLookup_cacheInsert_self]

/-- Witness for C2: a concrete repository, range and response. -/
theorem fetch_idempotent_single_network_call_witness :
    get_all_pull_requests
        ⟨200, "", [⟨7, "fix", "open", "2024-01-01T10:00:00Z", ⟨2024, 1, 1, 12, 0, 0⟩, "alice"⟩]⟩
        "edge" ⟨2024, 1, 1, 0, 0, 0⟩ ⟨2024, 1, 2, 0, 0, 0⟩ ⟨[]⟩ =
      Except.ok (filterPRs "edge" ⟨2024, 1, 1, 0, 0, 0⟩ ⟨2024, 1, 2, 0, 0, 0⟩
          [⟨7, "fix", "open", "2024-01-01T10:00:00Z", ⟨2024, 1, 1, 12, 0, 0⟩, "alice"⟩],
        ⟨cacheInsert [] (get_cache_key "edge" ⟨2024, 1, 1, 0, 0, 0⟩ ⟨2024, 1, 2, 0, 0, 0⟩)
          (filterPRs "edge" ⟨2024, 1, 1, 0, 0, 0⟩ ⟨2024, 1, 2, 0, 0, 0⟩
            [⟨7, "fix", "open", "2024-01-01T10:00:00Z", ⟨2024, 1, 1, 12, 0, 0⟩, "alice"⟩])⟩, 1) ∧
    get_all_pull_requests ⟨503, "unavailable", []⟩ "edge"
        ⟨2024, 1, 1, 0, 0, 0⟩ ⟨2024, 1, 2, 0, 0, 0⟩
        ⟨cacheInsert [] (get_cache_key "edge" ⟨2024, 1, 1, 0, 0, 0⟩ ⟨2024, 1, 2, 0, 0, 0⟩)
          (filterPRs "edge" ⟨2024, 1, 1, 0, 0, 0⟩ ⟨2024, 1, 2, 0, 0, 0⟩
            [⟨7, "fix", "open", "2024-01-01T10:00:00Z", ⟨2024, 1, 1, 12, 0, 0⟩, "alice"⟩])⟩ =
      Except.ok (filterPRs "edge" ⟨2024, 1, 1, 0, 0, 0⟩ ⟨2024, 1, 2, 0, 0, 0⟩
          [⟨7, "fix", "open", "2024-01-01T10:00:00Z", ⟨2024, 1, 1, 12, 0, 0⟩, "alice"⟩],
        ⟨cacheInsert [] (get_cache_key "edge" ⟨2024, 1, 1, 0, 0, 0⟩ ⟨2024, 1, 2, 0, 0, 0⟩)
          (filterPRs "edge" ⟨2024, 1, 1, 0, 0, 0⟩ ⟨2024, 1, 2, 0, 0, 0⟩
            [⟨7, "fix", "open", "2024-01-01T10:00:00Z", ⟨2024, 1, 1, 12, 0, 0⟩, "alice"⟩])⟩, 0) :=
  fetch_idempotent_single_network_call _ _ "edge" _ _ ⟨[]⟩ rfl rfl

/-- C5: the by-author fetch is the all-activity fetch followed by a pure
author filter: same cache state, same network-call count, and its
records are a subset of the all-activity records, each with the queried
author. -/
theorem author_filter_pure_subset (net : GHResponse) (repo_name username : String)
    (start_date end_date : DateTime) (st : ClientState)
    (prs : List PullRequestRecord) (st' : ClientState) (n : Nat)
    (hall : get_all_pull_requests net repo_name start_date end_date st =
      Except.ok (prs, st', n)) :
    get_user_pull_requests net repo_name username start_date end_date st =
      Except.ok (prs.filter (fun pr => pr.author == username), st', n) ∧
    ∀ x ∈ prs.filter (fun pr => pr.author == username), x ∈ prs ∧ x.author = username := by
  constructor
  · simp [get_user_pull_requests, hall]
  · intro x hx
    rw [List.mem_filter] at hx
    exact ⟨hx.1, by simpa using hx.2⟩

/-- Witness for C5: a concrete response holding pull requests by two
authors. -/
theorem author_filter_pure_subset_witness :
    get_user_pull_requests
        ⟨200, "", [⟨1, "a", "open", "c1", ⟨2024, 1, 1, 12, 0, 0⟩, "alice"⟩,
                   ⟨2, "b", "closed", "c2", ⟨2024, 1, 1, 13, 0, 0⟩, "bob"⟩]⟩
        "edge" "alice" ⟨2024, 1, 1, 0, 0, 0⟩ ⟨2024, 1, 2, 0, 0, 0⟩ ⟨[]⟩ =
      Except.ok ((filterPRs "edge" ⟨2024, 1, 1, 0, 0, 0⟩ ⟨2024, 1, 2, 0, 0, 0⟩
          [⟨1, "a", "open", "c1", ⟨2024, 1, 1, 12, 0, 0⟩, "alice"⟩,
           ⟨2, "b", "closed", "c2", ⟨2024, 1, 1, 13, 0, 0⟩, "bob"⟩]).filter
            (fun pr => pr.author == "alice"),
        ⟨cacheInsert [] (get_cache_key "edge" ⟨2024, 1, 1, 0, 0, 0⟩ ⟨2024, 1, 2, 0, 0, 0⟩)
          (filterPRs "edge" ⟨2024, 1, 1, 0, 0, 0⟩ ⟨2024, 1, 2, 0, 0, 0⟩
            [⟨1, "a", "open", "c1", ⟨2024, 1, 1, 12, 0, 0⟩, "alice"⟩,
             ⟨2, "b", "closed", "c2", ⟨2024, 1, 1, 13, 0, 0⟩, "bob"⟩])⟩, 1) ∧
    ∀ x ∈ (filterPRs "edge" ⟨2024, 1, 1, 0, 0, 0⟩ ⟨2024, 1, 2, 0, 0, 0⟩
          [⟨1, "a", "open", "c1", ⟨2024, 1, 1, 12, 0, 0⟩, "alice"⟩,
           ⟨2, "b", "closed", "c2", ⟨2024, 1, 1, 13, 0, 0⟩, "bob"⟩]).filter
            (fun pr => pr.author == "alice"),
      x ∈ filterPRs "edge" ⟨2024, 1, 1, 0, 0, 0⟩ ⟨2024, 1, 2, 0, 0, 0⟩
          [⟨1, "a", "open", "c1", ⟨2024, 1, 1, 12, 0, 0⟩, "alice"⟩,
           ⟨2, "b", "closed", "c2", ⟨2024, 1, 1, 13, 0, 0⟩, "bob"⟩] ∧
        x.author = "alice" :=
  author_filter_pure_subset _ "edge" "alice" _ _ ⟨[]⟩ _ _ _ rfl

/-- C7: with no cache entry for the key (so the remote call happens),
either fetch raises exactly when the remote status is not 200, and the
raised error carries that status code and the response body. -/
theorem error_iff_nonsuccess_status (net : GHResponse) (repo_name : String)
    (start_date end_date : DateTime) (st : ClientState)
    (hmiss : cacheLookup st.cache (get_cache_key repo_name start_date end_date) = none)
    (jnet : JiraResponse) :
    (isError (get_all_pull_requests net repo_name start_date end_date st) = true ↔
      net.status ≠ 200) ∧
    (net.status ≠ 200 →
      get_all_pull_requests net repo_name start_date end_date st =
        Except.error ⟨net.status, net.text⟩) ∧
    (isError (get_user_activities jnet start_date end_date) = true ↔
      jnet.status ≠ 200) ∧
    (jnet.status ≠ 200 →
      get_user_activities jnet start_date end_date =
        Except.error ⟨jnet.status, jnet.text⟩) := by
  refine ⟨?_, ?_, ?_, ?_⟩
  · by_cases h : net.status = 200 <;>
      simp [get_all_pull_requests, hmiss, h, isError]
  · intro h
    simp [get_all_pull_requests, hmiss, h]
  · by_cases h : jnet.status = 200 <;>
      simp [get_user_activities, h, isError]
  · intro h
    simp [get_user_activities, h]

/-- Witness for C7 at a failing response on each adapter. -/
theorem error_iff_nonsuccess_status_witness :
    (isError (get_all_pull_requests ⟨403, "forbidden", []⟩ "edge"
        ⟨2024, 1, 1, 0, 0, 0⟩ ⟨2024, 1, 2, 0, 0, 0⟩ ⟨[]⟩) = true ↔ (403 : Nat) ≠ 200) ∧
    ((403 : Nat) ≠ 200 →
      get_all_pull_requests ⟨403, "forbidden", []⟩ "edge"
          ⟨2024, 1, 1, 0, 0, 0⟩ ⟨2024, 1, 2, 0, 0, 0⟩ ⟨[]⟩ =
        Except.error ⟨403, "forbidden"⟩) ∧
    (isError (get_user_activities ⟨500, "oops", []⟩
        ⟨2024, 1, 1, 0, 0, 0⟩ ⟨2024, 1, 2, 0, 0, 0⟩) = true ↔ (500 : Nat) ≠ 200) ∧
    ((500 : Nat) ≠ 200 →
      get_user_activities ⟨500, "oops", []⟩ ⟨2024, 1, 1, 0, 0, 0⟩ ⟨2024, 1, 2, 0, 0, 0⟩ =
        Except.error ⟨500, "oops"⟩) :=
  error_iff_nonsuccess_status ⟨403, "forbidden", []⟩ "edge" _ _ ⟨[]⟩ rfl ⟨500, "oops", []⟩

/-- C8: every failure mode of the cache load (missing, unreadable or
corrupt file) yields the empty store without raising; then any key
misses, and a fetch with a successful response proceeds via the network
(one network call). -/
theorem corrupt_cache_initializes_empty (f : CacheFile)
    (hf : f = CacheFile.missing ∨ f = CacheFile.unreadable ∨ f = CacheFile.corrupt)
    (key : String) (net : GHResponse) (repo_name : String)
    (start_date end_date : DateTime) (hok : net.status = 200) :
    load_cache f = [] ∧
    cacheLookup (load_cache f) key = none ∧
    get_all_pull_requests net repo_name start_date end_date ⟨load_cache f⟩ =
      Except.ok (filterPRs repo_name start_date end_date net.json,
        ⟨cacheInsert [] (get_cache_key repo_name start_date end_date)
          (filterPRs repo_name start_date end_date net.json)⟩, 1) := by
  rcases hf with rfl | rfl | rfl <;>
    exact ⟨rfl, rfl, by simp [get_all_pull_requests, cacheLookup, load_cache, hok]⟩

/-- Witness for C8 on a corrupt cache file. -/
theorem corrupt_cache_initializes_empty_witness :
    load_cache CacheFile.corrupt = [] ∧
    cacheLookup (load_cache CacheFile.corrupt) "edge_20240101_20240102" = none ∧
    get_all_pull_requests ⟨200, "", []⟩ "edge" ⟨2024, 1, 1, 0, 0, 0⟩ ⟨2024, 1, 2, 0, 0, 0⟩
        ⟨load_cache CacheFile.corrupt⟩ =
      Except.ok (filterPRs "edge" ⟨2024, 1, 1, 0, 0, 0⟩ ⟨2024, 1, 2, 0, 0, 0⟩ [],
        ⟨cacheInsert [] (get_cache_key "edge" ⟨2024, 1, 1, 0, 0, 0⟩ ⟨2024, 1, 2, 0, 0, 0⟩)
          (filterPRs "edge" ⟨2024, 1, 1, 0, 0, 0⟩ ⟨2024, 1, 2, 0, 0, 0⟩ [])⟩, 1) :=
  corrupt_cache_initializes_empty CacheFile.corrupt (Or.inr (Or.inr rfl))
    "edge_20240101_20240102" ⟨200, "", []⟩ "edge" _ _ rfl

/-- C10: a successful issue-tracker fetch emits one record per returned
issue; an issue whose changelog yields no in-range, non-ignored items is
still emitted, carrying an empty changes sequence. -/
theorem issue_emitted_even_with_empty_changes (net : JiraResponse)
    (start_date end_date : DateTime) (hok : net.status = 200)
    (issue : RawIssue) (hmem : issue ∈ net.issues) :
    get_user_activities net start_date end_date =
      Except.ok (net.issues.map (normalize_issue start_date end_date)) ∧
    (net.issues.map (normalize_issue start_date end_date)).length = net.issues.length ∧
    normalize_issue start_date end_date issue ∈
      net.issues.map (normalize_issue start_date end_date) ∧
    (recent_changes start_date end_date (issue.changelog.getD []) = [] →
      normalize_issue start_date end_date issue =
        ⟨issue.key, issue.summary, issue.status, issue.updated, []⟩) := by
  refine ⟨by simp [get_user_activities, hok], by simp, List.mem_map_of_mem _ hmem, ?_⟩
  intro h
  simp [normalize_issue, h]

/-- Witness for C10: a response whose single issue has only an
out-of-range history entry. -/
theorem issue_emitted_even_with_empty_changes_witness :
    get_user_activities ⟨200, "", [issueQuiet]⟩ dStart dEnd =
      Except.ok ([issueQuiet].map (normalize_issue dStart dEnd)) ∧
    ([issueQuiet].map (normalize_issue dStart dEnd)).length = [issueQuiet].length ∧
    normalize_issue dStart dEnd issueQuiet ∈ [issueQuiet].map (normalize_issue dStart dEnd) ∧
    (recent_changes dStart dEnd (issueQuiet.changelog.getD []) = [] →
      normalize_issue dStart dEnd issueQuiet =
        ⟨issueQuiet.key, issueQuiet.summary, issueQuiet.status, issueQuiet.updated, []⟩) :=
  issue_emitted_even_with_empty_changes ⟨200, "", [issueQuiet]⟩ dStart dEnd rfl
    issueQuiet (by simp)

/-- C9: the emitted change description is field, colon-space, from-value,
then the three-character mojibake sequence U+00E2 U+2020 U+2019 between
spaces — not the arrow U+2192 — then the to-value. -/
theorem change_desc_renders_mojibake_arrow :
    change_desc ⟨"status", some "To Do", some "Done"⟩ =
      "status: To Do \u00E2\u2020\u2019 Done" ∧
    change_desc ⟨"status", some "To Do", some "Done"⟩ ≠
      "status: To Do \u2192 Done" :=
  ⟨rfl, by decide⟩

/-- C1: for a range with start before end, a remote pull request is
retained iff its update timestamp lies in the range, inclusive at both
ends; likewise a change-history entry contributes its (non-ignored)
items exactly when its timestamp lies in the range, and every emitted
change comes from an in-range entry. -/
theorem range_filter_boundary_inclusive (repo_name : String)
    (start_date end_date : DateTime) (hse : start_date.leb end_date = true)
    (prs_data : List RawPR) (pr : RawPR) (hpr : pr ∈ prs_data)
    (histories : List History) (h : History) (hh : h ∈ histories)
    (item : HistoryItem) (hitem : item ∈ h.items)
    (hfield : (["description", "Bug Template"] : List String).contains item.field = false) :
    (normalizePR repo_name pr ∈ filterPRs repo_name start_date end_date prs_data ↔
      (start_date.leb pr.updated_at = true ∧ pr.updated_at.leb end_date = true)) ∧
    (start_date.leb h.created = true → h.created.leb end_date = true →
      change_desc item ∈ recent_changes start_date end_date histories) ∧
    (∀ s ∈ recent_changes start_date end_date histories,
      ∃ h' ∈ histories,
        (start_date.leb h'.created = true ∧ h'.created.leb end_date = true) ∧
        ∃ item' ∈ h'.items, change_desc item' = s) := by
  refine ⟨?_, ?_, ?_⟩
  · constructor
    · intro hmm
      obtain ⟨a, ha, heq⟩ := List.mem_map.mp hmm
      obtain ⟨_, hcond⟩ := List.mem_filter.mp ha
      cases normalizePR_inj repo_name heq
      exact band_true hcond
    · intro hrange
      exact List.mem_map_of_mem _
        (List.mem_filter.mpr ⟨hpr, by simp [hrange.1, hrange.2]⟩)
  · intro h1 h2
    apply List.mem_flatMap.mpr
    refine ⟨h, List.mem_filter.mpr ⟨hh, by simp [h1, h2]⟩, ?_⟩
    exact List.mem_map_of_mem _
      (List.mem_filter.mpr ⟨hitem, by simp only [hfield, Bool.not_false]⟩)
  · intro s hs
    obtain ⟨h', hh', hsm⟩ := List.mem_flatMap.mp hs
    obtain ⟨hmem', hcond'⟩ := List.mem_filter.mp hh'
    obtain ⟨item', hif, heq⟩ := List.mem_map.mp hsm
    exact ⟨h', hmem', band_true hcond',
      item', (List.mem_filter.mp hif).1, heq⟩

/-- Witness for C1: one in-range pull request and one in-range history
entry with a non-ignored item. -/
theorem range_filter_boundary_inclusive_witness :
    (normalizePR "edge" prAlice ∈ filterPRs "edge" dStart dEnd [prAlice] ↔
      (dStart.leb prAlice.updated_at = true ∧ prAlice.updated_at.leb dEnd = true)) ∧
    (dStart.leb histIn.created = true → histIn.created.leb dEnd = true →
      change_desc itemStatus ∈ recent_changes dStart dEnd [histIn]) ∧
    (∀ s ∈ recent_changes dStart dEnd [histIn],
      ∃ h' ∈ [histIn],
        (dStart.leb h'.created = true ∧ h'.created.leb dEnd = true) ∧
        ∃ item' ∈ h'.items, change_desc item' = s) :=
  range_filter_boundary_inclusive "edge" dStart dEnd (by decide)
    [prAlice] prAlice (by simp) [histIn] histIn (by simp)
    itemStatus (by simp [histIn]) (by decide)

/-- C6: every string in the emitted changes sequence originates from a
history item whose field is neither `description` nor `Bug Template`;
an item with an ignored field never contributes, whatever its entry's
timestamp. -/
theorem ignored_fields_never_emitted (start_date end_date : DateTime)
    (histories : List History) (s : String)
    (hs : s ∈ recent_changes start_date end_date histories) :
    ∃ h ∈ histories,
      (start_date.leb h.created = true ∧ h.created.leb end_date = true) ∧
      ∃ item ∈ h.items,
        (item.field ≠ "description" ∧ item.field ≠ "Bug Template") ∧
        s = change_desc item := by
  obtain ⟨h, hh, hsm⟩ := List.mem_flatMap.mp hs
  obtain ⟨hmem, hcond⟩ := List.mem_filter.mp hh
  obtain ⟨item, hif, heq⟩ := List.mem_map.mp hsm
  obtain ⟨himem, hicond⟩ := List.mem_filter.mp hif
  refine ⟨h, hmem, band_true hcond, item, himem, ?_, heq.symm⟩
  have : ¬(item.field ∈ (["description", "Bug Template"] : List String)) := by
    simpa using hicond
  simp only [List.mem_cons, List.not_mem_nil, or_false, not_or] at this
  exact this

/-- Witness for C6 on a concrete changelog. -/
theorem ignored_fields_never_emitted_witness :
    ∃ h ∈ [histIn],
      (dStart.leb h.created = true ∧ h.created.leb dEnd = true) ∧
      ∃ item ∈ h.items,
        (item.field ≠ "description" ∧ item.field ≠ "Bug Template") ∧
        change_desc itemStatus = change_desc item :=
  ignored_fields_never_emitted dStart dEnd [histIn] (change_desc itemStatus) (by decide)

theorem fetch_member_prs_append (ghNet : String → GHResponse) (username : String)
    (start_date end_date : DateTime) (l₁ l₂ : List String) (st : ClientState) :
    fetch_member_prs ghNet username start_date end_date (l₁ ++ l₂) st =
      ((fetch_member_prs ghNet username start_date end_date l₁ st).1 ++
        (fetch_member_prs ghNet username start_date end_date l₂
          (fetch_member_prs ghNet username start_date end_date l₁ st).2.2).1,
       (fetch_member_prs ghNet username start_date end_date l₁ st).2.1 ++
        (fetch_member_prs ghNet username start_date end_date l₂
          (fetch_member_prs ghNet username start_date end_date l₁ st).2.2).2.1,
       (fetch_member_prs ghNet username start_date end_date l₂
          (fetch_member_prs ghNet username start_date end_date l₁ st).2.2).2.2) := by
  induction l₁ generalizing st with
  | nil => simp [fetch_member_prs]
  | cons r rs ih =>
    cases hr : get_user_pull_requests (ghNet r) r username start_date end_date st with
    | ok res =>
      obtain ⟨prs, st', n⟩ := res
      simp [fetch_member_prs, hr, ih st', List.append_assoc]
    | error err =>
      simp [fetch_member_prs, hr, ih st]

/-- C3: for every repository sequence, a failing repository fetch is
caught and recorded for that repository only: processing of the
repositories before and after it is untouched, and the member's report
is the concatenation of their results (here `l₁ ++ b :: l₂` ranges over
every sequence and every position of the failure); likewise a member
whose issue-tracker fetch fails still gets a report entry (carrying the
error) and the remaining members are still processed. -/
theorem partial_failure_isolation (ghNet : String → GHResponse)
    (jNet : String → JiraResponse) (username : String)
    (start_date end_date : DateTime) (l₁ l₂ : List String) (b : String)
    (st : ClientState) (errB : UpstreamError)
    (hB : get_user_pull_requests (ghNet b) b username start_date end_date
      (fetch_member_prs ghNet username start_date end_date l₁ st).2.2 =
      Except.error errB)
    (m : TeamMember) (rest : List TeamMember) (repos : List String)
    (st0 : ClientState) (jerr : UpstreamError)
    (hJ : get_user_activities (jNet m.email) start_date end_date = Except.error jerr) :
    fetch_member_prs ghNet username start_date end_date (l₁ ++ b :: l₂) st =
      ((fetch_member_prs ghNet username start_date end_date l₁ st).1 ++
        (fetch_member_prs ghNet username start_date end_date l₂
          (fetch_member_prs ghNet username start_date end_date l₁ st).2.2).1,
       (fetch_member_prs ghNet username start_date end_date l₁ st).2.1 ++
        (b, errB) ::
          (fetch_member_prs ghNet username start_date end_date l₂
            (fetch_member_prs ghNet username start_date end_date l₁ st).2.2).2.1,
       (fetch_member_prs ghNet username start_date end_date l₂
          (fetch_member_prs ghNet username start_date end_date l₁ st).2.2).2.2) ∧
    process_members ghNet jNet start_date end_date repos (m :: rest) st0 =
      ({ email := m.email, jira := Except.error jerr,
         prs := (fetch_member_prs ghNet m.github_user start_date end_date repos st0).1,
         pr_errors :=
           (fetch_member_prs ghNet m.github_user start_date end_date repos st0).2.1 } ::
        (process_members ghNet jNet start_date end_date repos rest
          (fetch_member_prs ghNet m.github_user start_date end_date repos st0).2.2).1,
       (process_members ghNet jNet start_date end_date repos rest
          (fetch_member_prs ghNet m.github_user start_date end_date repos st0).2.2).2) := by
  constructor
  · rw [fetch_member_prs_append]
    rcases hl2 : fetch_member_prs ghNet username start_date end_date l₂
        (fetch_member_prs ghNet username start_date end_date l₁ st).2.2 with ⟨p2, e2, st2⟩
    simp [fetch_member_prs, hB, hl2]
  · rcases hF : fetch_member_prs ghNet m.github_user start_date end_date repos st0 with
      ⟨pm, em, stm⟩
    rcases hP : process_members ghNet jNet start_date end_date repos rest stm with ⟨rr, str⟩
    simp [process_members, hJ, hF, hP]

/-- Witness for C3: the sequence `["a", "b", "c"]` split around the
failing repository `b`, and one member whose issue-tracker call is down
with no member after it. -/
theorem partial_failure_isolation_witness :
    fetch_member_prs ghNetW "alice" dStart dEnd (["a"] ++ "b" :: ["c"]) ⟨[]⟩ =
      ((fetch_member_prs ghNetW "alice" dStart dEnd ["a"] ⟨[]⟩).1 ++
        (fetch_member_prs ghNetW "alice" dStart dEnd ["c"]
          (fetch_member_prs ghNetW "alice" dStart dEnd ["a"] ⟨[]⟩).2.2).1,
       (fetch_member_prs ghNetW "alice" dStart dEnd ["a"] ⟨[]⟩).2.1 ++
        ("b", ⟨500, "boom"⟩) ::
          (fetch_member_prs ghNetW "alice" dStart dEnd ["c"]
            (fetch_member_prs ghNetW "alice" dStart dEnd ["a"] ⟨[]⟩).2.2).2.1,
       (fetch_member_prs ghNetW "alice" dStart dEnd ["c"]
          (fetch_member_prs ghNetW "alice" dStart dEnd ["a"] ⟨[]⟩).2.2).2.2) ∧
    process_members ghNetW jNetW dStart dEnd ["a", "b", "c"] [memberW] ⟨[]⟩ =
      ({ email := memberW.email, jira := Except.error ⟨500, "jira down"⟩,
         prs := (fetch_member_prs ghNetW memberW.github_user dStart dEnd
           ["a", "b", "c"] ⟨[]⟩).1,
         pr_errors := (fetch_member_prs ghNetW memberW.github_user dStart dEnd
           ["a", "b", "c"] ⟨[]⟩).2.1 } ::
        (process_members ghNetW jNetW dStart dEnd ["a", "b", "c"] []
          (fetch_member_prs ghNetW memberW.github_user dStart dEnd
            ["a", "b", "c"] ⟨[]⟩).2.2).1,
       (process_members ghNetW jNetW dStart dEnd ["a", "b", "c"] []
          (fetch_member_prs ghNetW memberW.github_user dStart dEnd
            ["a", "b", "c"] ⟨[]⟩).2.2).2) :=
  partial_failure_isolation ghNetW jNetW "alice" dStart dEnd ["a"] ["c"] "b" ⟨[]⟩
    ⟨500, "boom"⟩ rfl memberW [] ["a", "b", "c"] ⟨[]⟩ ⟨500, "jira down"⟩ rfl
